import Mathlib

/-!
# Verification of the authproxy request pipeline

A shallow embedding of the core of `src/proxy.rs` and `src/cli` of the
authproxy repository: the URI rewrite, the credential-producing subprocess
contract, the single-slot token cache with TTL, the bounded upstream
forward, and the command-line parameter extraction.

Machine time (`std::time::Instant`) is modelled as a natural number of
abstract monotonic-clock units; durations add onto it.  The `tokio::sync::Mutex`
around the cache slot serializes all `get_or_refresh` calls, so a group of
concurrent calls is modelled as a list of calls processed in sequence, each
with its own observation of the clock and its own subprocess outcome.
-/

/-- Errors of `http::uri` operations used by `handle_request`:
the parse failures of `str::parse::<Uri>` and the failures of
`Uri::from_parts`. -/
inductive UriError where
  | empty
  | invalidChar
  | invalidFormat
  | schemeMissing
  | authorityMissing
  | pathAndQueryMissing
  deriving Repr, DecidableEq

/-- The three components of `http::uri::Parts` that `handle_request`
manipulates (lines 106-111 of `src/proxy.rs`): scheme, authority, and the
combined path-and-query, each optional. -/
structure UriParts where
  scheme : Option String
  authority : Option String
  pathAndQuery : Option String
  deriving Repr, DecidableEq

/-- Model of `http::Uri::from_parts` (as called at `src/proxy.rs:111`):
a scheme requires both an authority and a path-and-query; an authority
together with a path-and-query requires a scheme. -/
def uriFromParts (p : UriParts) : Except UriError UriParts :=
  match p.scheme with
  | some _ =>
    if p.authority.isNone then .error .authorityMissing
    else if p.pathAndQuery.isNone then .error .pathAndQueryMissing
    else .ok p
  | none =>
    if p.authority.isSome && p.pathAndQuery.isSome then .error .schemeMissing
    else .ok p

/-- Characters legal inside a URI scheme (`http::uri::Scheme`). -/
def isSchemeChar (c : Char) : Bool :=
  c.isAlphanum || c = '+' || c = '-' || c = '.'

/-- Characters accepted by the `http` crate URI parser (approximation of its
`URI_CHARS` table by the RFC 3986 character set; in particular a space is
rejected). -/
def isUriChar (c : Char) : Bool :=
  c.isAlphanum || "!$%&()*+,-./:;=?@[]_~".data.contains c

/-- Split off a leading URI scheme: succeeds on `sch://rest` where every
character of `sch` is a scheme character, following the scheme scan of the
`http` crate (a scheme is only recognised when followed by `://`). -/
def splitSchemeAux : List Char → Option (List Char × List Char)
  | ':' :: '/' :: '/' :: rest => some ([], rest)
  | c :: rest =>
    if isSchemeChar c then (splitSchemeAux rest).map (fun p => (c :: p.1, p.2)) else none
  | [] => none

/-- Split an authority from the path-and-query that follows it: the
authority extends to the first `/`, `?` or `#`. -/
def splitAtPath : List Char → List Char × List Char
  | [] => ([], [])
  | c :: rest =>
    if c = '/' || c = '?' || c = '#' then ([], c :: rest)
    else
      let p := splitAtPath rest
      (c :: p.1, p.2)

/-- Model of `str::parse::<Uri>` (the `http` crate URI parser) as used at
`src/proxy.rs:100-104` to parse the configured target URL: the empty string
is rejected; `*` is the asterisk form; a leading `/` is the origin form
(path and query only); `sch://authority[/path...]` is the absolute form;
a bare authority with no path is the authority form; an authority followed
by a path without a scheme is rejected. -/
def parseUri (s : String) : Except UriError UriParts :=
  if s.data = [] then .error .empty
  else if s.data.all isUriChar then
    if s = "*" then .ok ⟨none, none, some "*"⟩
    else if s.data.head? = some '/' then .ok ⟨none, none, some s⟩
    else
      match splitSchemeAux s.data with
      | some (sch, rest) =>
        if sch = [] then .error .invalidFormat
        else
          let ap := splitAtPath rest
          if ap.1 = [] then .error .invalidFormat
          else .ok ⟨some ⟨sch⟩, some ⟨ap.1⟩, if ap.2 = [] then none else some ⟨ap.2⟩⟩
      | none =>
        let ap := splitAtPath s.data
        if ap.2 = [] then .ok ⟨none, some ⟨ap.1⟩, none⟩
        else .error .invalidFormat
  else .error .invalidChar

/-- The structured failures of the pipeline, one constructor per failure
exit of `src/proxy.rs` and `src/cli/mod.rs` (the source uses
`failure::Error` values built with `err_msg`/`context`; the spec names
them `InvalidTargetUrl`, `SubprocessFailed`, `InvalidCredentialOutput`,
`HeaderEncodingError`, `UpstreamTimeout`, `UpstreamUnreachable`). -/
inductive ProxyError where
  | invalidTargetUrl (e : UriError)
  | uriPartsError (e : UriError)
  | cmdlineParse (arg : String)
  | commandIndexPanic
  | subprocessFailed (status : Nat) (stdout : List Nat)
  | invalidCredentialOutput
  | headerEncodingError
  | upstreamTimeout
  | upstreamUnreachable
  deriving Repr, DecidableEq

/-- A UTF-8 continuation byte. -/
def isUtf8Cont (b : Nat) : Bool := 0x80 ≤ b && b < 0xC0

/-- UTF-8 decoder (model of the validation done by `String::from_utf8` at
`src/proxy.rs:129`), fuelled by the length of the byte list.  Overlong
encodings, surrogate code points and code points above `0x10FFFF` are
rejected, as in Rust. -/
def utf8DecodeAux : Nat → List Nat → Option (List Char)
  | _, [] => some []
  | 0, _ :: _ => none
  | fuel + 1, b :: rest =>
    if b < 0x80 then
      (utf8DecodeAux fuel rest).map (fun cs => Char.ofNat b :: cs)
    else if b < 0xC2 then none
    else if b < 0xE0 then
      match rest with
      | b1 :: rest2 =>
        if isUtf8Cont b1 then
          (utf8DecodeAux fuel rest2).map
            (fun cs => Char.ofNat ((b - 0xC0) * 0x40 + (b1 - 0x80)) :: cs)
        else none
      | [] => none
    else if b < 0xF0 then
      match rest with
      | b1 :: b2 :: rest3 =>
        if isUtf8Cont b1 && isUtf8Cont b2 then
          let cp := (b - 0xE0) * 0x1000 + (b1 - 0x80) * 0x40 + (b2 - 0x80)
          if 0x800 ≤ cp && (cp < 0xD800 || 0xDFFF < cp) then
            (utf8DecodeAux fuel rest3).map (fun cs => Char.ofNat cp :: cs)
          else none
        else none
      | _ => none
    else if b < 0xF5 then
      match rest with
      | b1 :: b2 :: b3 :: rest4 =>
        if isUtf8Cont b1 && isUtf8Cont b2 && isUtf8Cont b3 then
          let cp := (b - 0xF0) * 0x40000 + (b1 - 0x80) * 0x1000
                      + (b2 - 0x80) * 0x40 + (b3 - 0x80)
          if 0x10000 ≤ cp && cp ≤ 0x10FFFF then
            (utf8DecodeAux fuel rest4).map (fun cs => Char.ofNat cp :: cs)
          else none
        else none
      | _ => none
    else none

/-- Model of `String::from_utf8`: decode a byte list into a string, or fail. -/
def utf8Decode? (bytes : List Nat) : Option String :=
  (utf8DecodeAux bytes.length bytes).map (fun cs => ⟨cs⟩)

/-- The code points Rust `char::is_whitespace` accepts (the Unicode
White_Space property), which is what `str::trim` strips. -/
def rustWhitespaceCodes : List Nat :=
  [0x09, 0x0A, 0x0B, 0x0C, 0x0D, 0x20, 0x85, 0xA0, 0x1680,
   0x2000, 0x2001, 0x2002, 0x2003, 0x2004, 0x2005, 0x2006, 0x2007,
   0x2008, 0x2009, 0x200A, 0x2028, 0x2029, 0x202F, 0x205F, 0x3000]

/-- Rust `char::is_whitespace`. -/
def isRustWhitespace (c : Char) : Bool := rustWhitespaceCodes.contains c.toNat

/-- Rust `str::trim` (as called at `src/proxy.rs:129`): remove leading and
trailing whitespace. -/
def rustTrim (s : String) : String :=
  ⟨((s.data.dropWhile isRustWhitespace).reverse.dropWhile isRustWhitespace).reverse⟩

/-- Header maps are modelled as ordered lists of name-value pairs; names
are stored lowercase, as `http::HeaderName` normalises them. -/
def Headers : Type := List (String × String)

instance : DecidableEq Headers := by
  unfold Headers
  infer_instance

/-- All values of a header name, in order (`http::HeaderMap::get_all`). -/
def headerGetAll (hs : List (String × String)) (name : String) : List String :=
  (hs.filter (fun p => p.1 = name)).map Prod.snd

/-- Model of `http::HeaderMap::insert` (as at `src/proxy.rs:135-137`): associate the
name with the single given value, removing every previously associated
value. -/
def headerInsert (hs : List (String × String)) (name value : String) :
    List (String × String) :=
  hs.filter (fun p => p.1 ≠ name) ++ [(name, value)]

/-- Model of `http::HeaderMap::remove` (as at `src/proxy.rs:140`): remove the whole
entry for the name, all of its values included. -/
def headerRemove (hs : List (String × String)) (name : String) :
    List (String × String) :=
  hs.filter (fun p => p.1 ≠ name)

/-- Model of `http::HeaderValue::from_str` (as at `src/proxy.rs:137`) accepts only
visible ASCII and horizontal tab. -/
def isValidHeaderValue (s : String) : Bool :=
  s.data.all (fun c => (0x20 ≤ c.toNat && c.toNat < 0x7F) || c.toNat = 0x09)

/-- Structure `ProxyParams` of `src/proxy.rs:19-27` (the listen port, a `u16`, and
the TTL, a `u64` of seconds, are modelled as naturals). -/
structure ProxyParams where
  target_url : String
  insecure_https : Bool
  local_host : String
  local_port : Nat
  cache_ttl_secs : Nat
  command : List String
  deriving Repr, DecidableEq

/-- Structure `TokenCacheEntry` of `src/proxy.rs:29-42`: a token and the instant it
was inserted (`Instant::now()` at construction). -/
structure TokenCacheEntry where
  token : String
  inserted_at : Nat
  deriving Repr, DecidableEq

deriving instance DecidableEq for Except

/-- The observable outcome of one `TokenCache::get_or_refresh` call: the
cache slot when the lock is released, the value returned to the caller,
and whether the credential-provider callback was invoked. -/
structure CacheStep where
  state : Option TokenCacheEntry
  result : Except ProxyError String
  invoked : Bool
  deriving Repr, DecidableEq

/-- The refresh arm of `get_or_refresh` (`src/proxy.rs:71-75`): on callback
failure the `?` operator returns without touching the slot; on success the
token is stored with `inserted_at` equal to the instant the callback
completed. -/
def refreshStep (state : Option TokenCacheEntry) (refreshDone : Nat)
    (callbackResult : Except ProxyError String) : CacheStep :=
  match callbackResult with
  | .error e => ⟨state, .error e, true⟩
  | .ok token => ⟨some ⟨token, refreshDone⟩, .ok token, true⟩

/-- Model of `TokenCache::get_or_refresh` (`src/proxy.rs:58-77`).  `now` is the
instant of the validity check (`Instant::now()` at line 67) and
`refreshDone` the instant the callback completes (`Instant::now()` inside
`TokenCacheEntry::new`); `callbackResult` is the outcome the callback
would produce if invoked.  An entry is valid while
`inserted_at + ttl > now`. -/
def get_or_refresh (ttl : Nat) (state : Option TokenCacheEntry)
    (now refreshDone : Nat) (callbackResult : Except ProxyError String) : CacheStep :=
  match state with
  | some e =>
    if e.inserted_at + ttl > now then ⟨some e, .ok e.token, false⟩
    else refreshStep (some e) refreshDone callbackResult
  | none => refreshStep none refreshDone callbackResult

/-- One caller in a group of concurrent `get_or_refresh` calls: the instant
it performs its validity check, the instant its refresh (if any) would
complete, and the outcome its callback would produce.  The tokio mutex
serializes the calls, so a group runs as a sequence. -/
structure CallCtx where
  now : Nat
  refreshDone : Nat
  callbackResult : Except ProxyError String
  deriving Repr, DecidableEq

/-- Outcome of a serialized group of `get_or_refresh` calls: final slot,
per-caller results in order, and the number of callback invocations. -/
structure RunResult where
  state : Option TokenCacheEntry
  results : List (Except ProxyError String)
  invocations : Nat
  deriving Repr, DecidableEq

/-- Run a group of `get_or_refresh` calls in the order the mutex admits
them. -/
def runCalls (ttl : Nat) : Option TokenCacheEntry → List CallCtx → RunResult
  | st, [] => ⟨st, [], 0⟩
  | st, c :: cs =>
    let step := get_or_refresh ttl st c.now c.refreshDone c.callbackResult
    let rest := runCalls ttl step.state cs
    ⟨rest.state, step.result :: rest.results,
      (if step.invoked then 1 else 0) + rest.invocations⟩

/-- Lines 122-129 of `src/proxy.rs`, given the completed subprocess output:
non-zero exit status fails with the status and captured output
(`SubprocessFailed`); invalid UTF-8 standard output fails
(`InvalidCredentialOutput`); otherwise the token is the decoded output
with surrounding whitespace trimmed. -/
def fetchToken (status : Nat) (stdout : List Nat) : Except ProxyError String :=
  if status = 0 then
    match utf8Decode? stdout with
    | none => .error .invalidCredentialOutput
    | some s => .ok (rustTrim s)
  else .error (.subprocessFailed status stdout)

/-- The credential callback of `src/proxy.rs:115-130`: it spawns
`command[0]` with arguments `command[1..]`.  The unguarded index
`command[0]` panics on an empty vector; that branch is modelled by the
distinguished `commandIndexPanic` outcome.  `sub` is the (exit status,
captured standard output) of the spawned process. -/
def runCredentialCommand (command : List String) (sub : Nat × List Nat) :
    Except ProxyError String :=
  match command.head? with
  | none => .error .commandIndexPanic
  | some _ => fetchToken sub.1 sub.2

/-- An HTTP request (`hyper::Request<Body>`) as the pipeline observes it:
method, URI parts, header list (names lowercase as `http::HeaderName`
stores them), body byte stream. -/
structure Request where
  method : String
  uri : UriParts
  headers : List (String × String)
  body : List Nat
  deriving Repr, DecidableEq

/-- An upstream HTTP response, treated opaquely by the proxy. -/
structure Response where
  status : Nat
  body : List Nat
  deriving Repr, DecidableEq

/-- Outcome of the request-building part of `handle_request`
(`src/proxy.rs:100-142`): cache slot afterwards, whether the provider ran,
and the outbound request or the failure. -/
structure BuildResult where
  state : Option TokenCacheEntry
  invoked : Bool
  outbound : Except ProxyError Request
  deriving Repr, DecidableEq

/-- Lines 100-142 of `src/proxy.rs`: parse the configured target URL,
replace the inbound URI scheme and authority with the target ones, obtain
a token through the cache, set `Authorization: Bearer <token>` (failing if
the value has illegal header bytes), remove `Host`, and assemble the
outbound request.  `now`, `refreshDone` and `sub` describe the
environment of the (at most one) cache refresh. -/
def buildOutbound (params : ProxyParams) (cache : Option TokenCacheEntry)
    (req : Request) (now refreshDone : Nat) (sub : Nat × List Nat) : BuildResult :=
  match parseUri params.target_url with
  | .error e => ⟨cache, false, .error (.invalidTargetUrl e)⟩
  | .ok target =>
    match uriFromParts ⟨target.scheme, target.authority, req.uri.pathAndQuery⟩ with
    | .error e => ⟨cache, false, .error (.uriPartsError e)⟩
    | .ok newUri =>
      match get_or_refresh params.cache_ttl_secs cache now refreshDone
          (runCredentialCommand params.command sub) with
      | ⟨cache2, .error e, invoked⟩ => ⟨cache2, invoked, .error e⟩
      | ⟨cache2, .ok token, invoked⟩ =>
        if isValidHeaderValue ("Bearer " ++ token) then
          ⟨cache2, invoked, .ok ⟨req.method, newUri,
            headerRemove (headerInsert req.headers "authorization"
              ("Bearer " ++ token)) "host",
            req.body⟩⟩
        else ⟨cache2, invoked, .error .headerEncodingError⟩

/-- The timeout bound of the forward step, `Duration::from_secs(600)` at
`src/proxy.rs:145`. -/
def forwardTimeoutSecs : Nat := 600

/-- Model of `tokio::time::timeout(600s, client.request(..))` at `src/proxy.rs:145`:
if the upstream round trip takes `delaySecs` and finishes within the
bound, its outcome (a response, or an `UpstreamUnreachable`-style client
failure) is returned; otherwise the call fails with `UpstreamTimeout` at
the bound. -/
def forward (delaySecs : Nat) (upstream : Except ProxyError Response) :
    Except ProxyError Response :=
  if delaySecs < forwardTimeoutSecs then upstream else .error .upstreamTimeout

/-- Observable outcome of one `handle_request` call. -/
structure HandleResult where
  state : Option TokenCacheEntry
  invoked : Bool
  response : Except ProxyError Response
  deriving Repr, DecidableEq

/-- Model of `handle_request` (`src/proxy.rs:95-148`): build the outbound request,
then forward it with the 600-second bound.  `upstreamDelay` and
`upstream` describe how the upstream behaves for this request. -/
def handle_request (params : ProxyParams) (cache : Option TokenCacheEntry)
    (req : Request) (now refreshDone : Nat) (sub : Nat × List Nat)
    (upstreamDelay : Nat) (upstream : Except ProxyError Response) : HandleResult :=
  let b := buildOutbound params cache req now refreshDone sub
  match b.outbound with
  | .error e => ⟨b.state, b.invoked, .error e⟩
  | .ok _ => ⟨b.state, b.invoked, forward upstreamDelay upstream⟩

/-- The clap match results consumed by `get_proxy_params`
(`src/cli/mod.rs:16-38`): each argument value as clap delivers it.  For
`COMMAND` (declared `required` and `multiple` in `build_clap_app`,
`src/cli/cmdline.rs`), clap yields `some vs` with `vs` non-empty whenever
parsing succeeded. -/
structure ArgMatches where
  target_url : Option String
  insecure_https : Bool
  listen_host : Option String
  listen_port : Option String
  command : Option (List String)
  deriving Repr, DecidableEq

/-- Accumulate a decimal number from a digit list; fail on a non-digit. -/
def parseDigitsAux : List Char → Nat → Option Nat
  | [], acc => some acc
  | c :: rest, acc =>
    if c.isDigit then parseDigitsAux rest (acc * 10 + (c.toNat - 48)) else none

/-- Rust `str::parse::<u16>` returning `Option` (via `.ok()`): a non-empty
digit sequence with an optional leading `+`, value below 2^16. -/
def parseU16? (s : String) : Option Nat :=
  let t : List Char := if s.data.head? = some '+' then s.data.tail else s.data
  if t = [] then none
  else
    match parseDigitsAux t 0 with
    | some n => if n < 65536 then some n else none
    | none => none

/-- The record of fields actually constructed by `get_proxy_params` in
`src/cli/mod.rs:18-37` (the source literal sets exactly these five; it
does not set a cache TTL). -/
structure ParsedParams where
  target_url : String
  insecure_https : Bool
  local_host : String
  local_port : Nat
  command : List String
  deriving Repr, DecidableEq

/-- Model of `get_proxy_params` (`src/cli/mod.rs:16-38`): pull each argument out of
the matches or fail with a "Failed to parse command line argument" error.
No target-URL parsing or validation happens here: the string is passed
through verbatim. -/
def get_proxy_params (m : ArgMatches) : Except ProxyError ParsedParams :=
  match m.target_url with
  | none => .error (.cmdlineParse "TARGET_URL")
  | some target =>
    match m.listen_host with
    | none => .error (.cmdlineParse "LISTEN_HOST")
    | some host =>
      match m.listen_port.bind parseU16? with
      | none => .error (.cmdlineParse "LISTEN_PORT")
      | some port =>
        match m.command with
        | none => .error (.cmdlineParse "COMMAND")
        | some cmd => .ok ⟨target, m.insecure_https, host, port, cmd⟩

/-- Combine the parsed parameters with a TTL into the `ProxyParams` the
request pipeline consumes (`ProxyContext::new`, `src/proxy.rs:86-93`,
turns `cache_ttl_secs` into the cache TTL). -/
def ParsedParams.toProxyParams (p : ParsedParams) (cache_ttl_secs : Nat) : ProxyParams :=
  ⟨p.target_url, p.insecure_https, p.local_host, p.local_port, cache_ttl_secs, p.command⟩

/-- A `get_or_refresh` call that finds a valid entry returns its token,
leaves the slot untouched and does not invoke the callback. -/
theorem get_or_refresh_hit (ttl : Nat) (e : TokenCacheEntry) (now rd : Nat)
    (cb : Except ProxyError String) (h : e.inserted_at + ttl > now) :
    get_or_refresh ttl (some e) now rd cb = ⟨some e, .ok e.token, false⟩ := by
  simp [get_or_refresh, h]

/-- A `get_or_refresh` call that finds no valid entry performs the refresh
arm. -/
theorem get_or_refresh_miss (ttl : Nat) (st : Option TokenCacheEntry)
    (now rd : Nat) (cb : Except ProxyError String)
    (h : ∀ e, st = some e → e.inserted_at + ttl ≤ now) :
    get_or_refresh ttl st now rd cb = refreshStep st rd cb := by
  cases st with
  | none => rfl
  | some e =>
    have hle := h e rfl
    simp only [get_or_refresh, gt_iff_lt]
    rw [if_neg (by omega)]

/-- C1: for a cache with TTL `T`, a token stored at `t0` is returned
unchanged (without invoking the provider) by every call at `t` with
`t0 ≤ t < t0 + T`; every call at `t ≥ t0 + T` invokes the provider and,
when the provider succeeds, returns and stores the fresh token; with
`T = 0` every call (on any entry not inserted in the future) invokes the
provider. -/
theorem cache_ttl_correct (T : Nat) (tok : String) (t0 t rd : Nat)
    (cb : Except ProxyError String) (hmono : t0 ≤ t) :
    (t < t0 + T →
      get_or_refresh T (some ⟨tok, t0⟩) t rd cb = ⟨some ⟨tok, t0⟩, .ok tok, false⟩) ∧
    (t0 + T ≤ t →
      (get_or_refresh T (some ⟨tok, t0⟩) t rd cb).invoked = true ∧
      ∀ fresh, cb = .ok fresh →
        get_or_refresh T (some ⟨tok, t0⟩) t rd cb = ⟨some ⟨fresh, rd⟩, .ok fresh, true⟩) ∧
    (T = 0 →
      ∀ st : Option TokenCacheEntry, (∀ e, st = some e → e.inserted_at ≤ t) →
        (get_or_refresh 0 st t rd cb).invoked = true) := by
  refine ⟨?_, ?_, ?_⟩
  · intro hlt
    exact get_or_refresh_hit T ⟨tok, t0⟩ t rd cb (by simpa using hlt)
  · intro hge
    have hmiss := get_or_refresh_miss T (some ⟨tok, t0⟩) t rd cb
      (by intro e he; injection he with h; rw [← h]; exact hge)
    constructor
    · rw [hmiss]; cases cb <;> rfl
    · intro fresh hcb
      rw [hmiss, hcb]; rfl
  · intro hT st hst
    have hmiss := get_or_refresh_miss 0 st t rd cb
      (by intro e he; simpa using hst e he)
    rw [hmiss]; cases cb <;> rfl

theorem cache_ttl_correct_witness :
    get_or_refresh 2 (some ⟨"tok", 0⟩) 1 1 (.ok "fresh") =
      ⟨some ⟨"tok", 0⟩, .ok "tok", false⟩ ∧
    get_or_refresh 2 (some ⟨"tok", 0⟩) 5 5 (.ok "fresh") =
      ⟨some ⟨"fresh", 5⟩, .ok "fresh", true⟩ :=
  ⟨(cache_ttl_correct 2 "tok" 0 1 1 (.ok "fresh") (by omega)).1 (by omega),
   ((cache_ttl_correct 2 "tok" 0 5 5 (.ok "fresh") (by omega)).2.1 (by omega)).2
     "fresh" rfl⟩

/-- Every call of a group that observes a valid entry returns its token
without invoking the provider; the slot is unchanged. -/
theorem runCalls_all_hit (ttl : Nat) (e : TokenCacheEntry) :
    ∀ cs : List CallCtx, (∀ c ∈ cs, e.inserted_at + ttl > c.now) →
      runCalls ttl (some e) cs = ⟨some e, cs.map (fun _ => .ok e.token), 0⟩ := by
  intro cs
  induction cs with
  | nil => intro _; rfl
  | cons c cs ih =>
    intro h
    have hc := h c (List.mem_cons_self c cs)
    have hrest := ih (fun c' hc' => h c' (List.mem_cons_of_mem _ hc'))
    simp [runCalls, get_or_refresh_hit ttl e c.now c.refreshDone c.callbackResult hc,
      hrest]

/-- C2 (amended): the mutex serializes the callers, so the provider
invocations of a group of concurrent `get_or_refresh` calls happen one
after another.  When the TTL is positive and the refresh performed by the
first admitted caller succeeds, that is the single provider invocation
and every caller of the group receives its token.  When the first
admitted caller's refresh fails, the failure propagates only to that
caller, the slot is left without a valid entry, and the remaining
callers proceed exactly as if they had arrived alone — so the next one
performs its own invocation. -/
theorem single_flight_amended :
    (∀ (ttl t : Nat) (tok : String) (c : CallCtx) (cs : List CallCtx)
      (st : Option TokenCacheEntry),
      0 < ttl →
      (∀ ent, st = some ent → ent.inserted_at + ttl ≤ t) →
      c.now = t → c.refreshDone = t → c.callbackResult = .ok tok →
      (∀ c' ∈ cs, c'.now = t) →
      runCalls ttl st (c :: cs) =
        ⟨some ⟨tok, t⟩, (c :: cs).map (fun _ => .ok tok), 1⟩) ∧
    (∀ (ttl : Nat) (err : ProxyError) (c : CallCtx) (cs : List CallCtx)
      (st : Option TokenCacheEntry),
      (∀ ent, st = some ent → ent.inserted_at + ttl ≤ c.now) →
      c.callbackResult = .error err →
      runCalls ttl st (c :: cs) =
        ⟨(runCalls ttl st cs).state,
         .error err :: (runCalls ttl st cs).results,
         1 + (runCalls ttl st cs).invocations⟩) := by
  constructor
  · intro ttl t tok c cs st httl hinvalid hcnow hcrd hcb hrest
    have hstep : get_or_refresh ttl st c.now c.refreshDone c.callbackResult =
        ⟨some ⟨tok, t⟩, .ok tok, true⟩ := by
      rw [get_or_refresh_miss ttl st c.now c.refreshDone c.callbackResult
        (by intro ent he; rw [hcnow]; exact hinvalid ent he), hcb, hcrd]
      rfl
    have hall := runCalls_all_hit ttl ⟨tok, t⟩ cs
      (by intro c' hc'; rw [hrest c' hc']; change t + ttl > t; omega)
    simp [runCalls, hstep, hall]
  · intro ttl err c cs st hinvalid hcb
    have hstep : get_or_refresh ttl st c.now c.refreshDone c.callbackResult =
        ⟨st, .error err, true⟩ := by
      rw [get_or_refresh_miss ttl st c.now c.refreshDone c.callbackResult hinvalid,
        hcb]
      rfl
    simp [runCalls, hstep]

theorem single_flight_amended_witness :
    runCalls 5 none [⟨7, 7, .ok "t"⟩, ⟨7, 7, .ok "x"⟩] =
      ⟨some ⟨"t", 7⟩, [.ok "t", .ok "t"], 1⟩ ∧
    runCalls 5 none [⟨7, 7, .error .upstreamTimeout⟩, ⟨7, 7, .ok "x"⟩] =
      ⟨some ⟨"x", 7⟩, [.error .upstreamTimeout, .ok "x"], 2⟩ := by
  constructor
  · exact single_flight_amended.1 5 7 "t" ⟨7, 7, .ok "t"⟩ [⟨7, 7, .ok "x"⟩] none
      (by omega) (by intro ent he; cases he) rfl rfl rfl
      (by intro c' hc'; simp at hc'; rw [hc'])
  · have h := single_flight_amended.2 5 .upstreamTimeout
      ⟨7, 7, .error .upstreamTimeout⟩ [⟨7, 7, .ok "x"⟩] none
      (by intro ent he; cases he) rfl
    rw [h]
    rfl

/-- C2 counterexample: the claim fails on the code in two ways.  First,
with TTL 0 (legal per the spec, "always refresh") two concurrent calls
arriving at instant 0 while no valid entry exists — the cache is empty —
cause TWO provider invocations with possibly different tokens.  Second,
even with a positive TTL, when the first admitted caller's refresh fails
the next serialized caller performs its OWN invocation and here receives
its own success — two invocations, and the second caller does not
observe "a failure derived from that same invocation".  Both refute
"exactly one invocation ... all N callers receive the result of that one
invocation". -/
theorem single_flight_counterexample :
    runCalls 0 none [⟨0, 0, .ok "a"⟩, ⟨0, 0, .ok "b"⟩] =
      ⟨some ⟨"b", 0⟩, [.ok "a", .ok "b"], 2⟩ ∧
    runCalls 5 none [⟨0, 0, .error .invalidCredentialOutput⟩, ⟨0, 0, .ok "b"⟩] =
      ⟨some ⟨"b", 0⟩, [.error .invalidCredentialOutput, .ok "b"], 2⟩ ∧
    (2 ≠ 1) ∧
    (Except.ok "a" ≠ (Except.ok "b" : Except ProxyError String)) ∧
    (Except.ok "b" ≠ (.error .invalidCredentialOutput : Except ProxyError String)) :=
  ⟨rfl, rfl, by omega, by decide, by decide⟩

/-- C3 counterexample: a refresh triggered while an expired entry is in
the slot (TTL 1, entry inserted at 0, call at 5) whose provider fails
leaves the expired entry in the slot — the cache is NOT left empty,
contradicting "the cache is left empty (no entry stored)". -/
theorem refresh_failure_counterexample :
    get_or_refresh 1 (some ⟨"old", 0⟩) 5 5 (.error .invalidCredentialOutput) =
      ⟨some ⟨"old", 0⟩, .error .invalidCredentialOutput, true⟩ ∧
    (some (⟨"old", 0⟩ : TokenCacheEntry) ≠ none) :=
  ⟨rfl, by decide⟩

/-- C3 (amended): when the provider invoked by `get_or_refresh` fails, the
failure is returned to the caller and the slot is left unchanged — no
entry is stored, so a cache that was empty stays empty, and a
pre-existing expired entry remains but can never be returned: every
subsequent call (at any later instant) again invokes the provider. -/
theorem refresh_failure_amended (ttl : Nat) (st : Option TokenCacheEntry)
    (now rd : Nat) (err : ProxyError)
    (hinvalid : ∀ e, st = some e → e.inserted_at + ttl ≤ now) :
    get_or_refresh ttl st now rd (.error err) = ⟨st, .error err, true⟩ ∧
    (st = none → (get_or_refresh ttl st now rd (.error err)).state = none) ∧
    (∀ t' rd' cb', now ≤ t' → (get_or_refresh ttl st t' rd' cb').invoked = true) := by
  have hmiss := get_or_refresh_miss ttl st now rd (.error err) hinvalid
  refine ⟨by rw [hmiss]; rfl, ?_, ?_⟩
  · intro hnone; rw [hmiss, hnone]; rfl
  · intro t' rd' cb' hle
    have hmiss' := get_or_refresh_miss ttl st t' rd' cb'
      (by intro e he; exact le_trans (hinvalid e he) hle)
    rw [hmiss']; cases cb' <;> rfl

theorem refresh_failure_amended_witness :
    get_or_refresh 1 (some ⟨"old", 0⟩) 5 5 (.error .upstreamTimeout) =
      ⟨some ⟨"old", 0⟩, .error .upstreamTimeout, true⟩ ∧
    get_or_refresh 1 (none : Option TokenCacheEntry) 5 5 (.error .upstreamTimeout) =
      ⟨none, .error .upstreamTimeout, true⟩ :=
  ⟨(refresh_failure_amended 1 (some ⟨"old", 0⟩) 5 5 .upstreamTimeout
      (by intro e he; injection he with h; rw [← h]; decide)).1,
   (refresh_failure_amended 1 none 5 5 .upstreamTimeout
      (by intro e he; cases he)).1⟩

/-- The subprocess outcome handler never produces the panic marker of the
`command[0]` index. -/
theorem fetchToken_no_panic (status : Nat) (stdout : List Nat) :
    fetchToken status stdout ≠ .error .commandIndexPanic := by
  unfold fetchToken
  split
  · split <;> simp
  · simp

/-- C6: the Credential Provider invocation succeeds exactly on exit status
0 with text output: exit 0 and valid UTF-8 output yield the decoded
output with surrounding whitespace trimmed (and that trimmed token is
what `get_or_refresh` caches); non-zero exit yields `SubprocessFailed`
carrying the status and the captured output; exit 0 with invalid text
yields `InvalidCredentialOutput`; and every success implies exit 0 with
the trimmed decoded output as token. -/
theorem credential_provider_contract :
    (∀ stdout s, utf8Decode? stdout = some s →
      fetchToken 0 stdout = .ok (rustTrim s)) ∧
    (∀ status stdout, status ≠ 0 →
      fetchToken status stdout = .error (.subprocessFailed status stdout)) ∧
    (∀ stdout, utf8Decode? stdout = none →
      fetchToken 0 stdout = .error .invalidCredentialOutput) ∧
    (∀ status stdout tok, fetchToken status stdout = .ok tok →
      status = 0 ∧ ∃ s, utf8Decode? stdout = some s ∧ tok = rustTrim s) ∧
    (∀ stdout s ttl now rd, utf8Decode? stdout = some s →
      get_or_refresh ttl none now rd (fetchToken 0 stdout) =
        ⟨some ⟨rustTrim s, rd⟩, .ok (rustTrim s), true⟩) := by
  refine ⟨?_, ?_, ?_, ?_, ?_⟩
  · intro stdout s h; simp [fetchToken, h]
  · intro status stdout h; simp [fetchToken, h]
  · intro stdout h; simp [fetchToken, h]
  · intro status stdout tok h
    unfold fetchToken at h
    by_cases hs : status = 0
    · rw [if_pos hs] at h
      cases hd : utf8Decode? stdout with
      | none => rw [hd] at h; cases h
      | some s =>
        rw [hd] at h
        injection h with h2
        exact ⟨hs, s, rfl, h2.symm⟩
    · rw [if_neg hs] at h; cases h
  · intro stdout s ttl now rd h
    simp [get_or_refresh, refreshStep, fetchToken, h]

theorem credential_provider_witness :
    fetchToken 0 [32, 32, 116, 111, 107, 10] = .ok "tok" ∧
    fetchToken 2 [111] = .error (.subprocessFailed 2 [111]) ∧
    fetchToken 0 [255] = .error .invalidCredentialOutput ∧
    get_or_refresh 300 none 0 0 (fetchToken 0 [32, 32, 116, 111, 107, 10]) =
      ⟨some ⟨"tok", 0⟩, .ok "tok", true⟩ := by
  have h1 := credential_provider_contract.1 [32, 32, 116, 111, 107, 10] "  tok\n" rfl
  have h2 := credential_provider_contract.2.1 2 [111] (by omega)
  have h3 := credential_provider_contract.2.2.1 [255] rfl
  have h4 := credential_provider_contract.2.2.2.2 [32, 32, 116, 111, 107, 10]
    "  tok\n" 300 0 0 rfl
  have ht : rustTrim "  tok\n" = "tok" := rfl
  rw [ht] at h1 h4
  exact ⟨h1, h2, h3, h4⟩

/-- C7: the forward step applies the bound of exactly 600 seconds from
`src/proxy.rs:145` to every rewritten request: an upstream still silent at
the bound makes the request fail with `UpstreamTimeout` at the bound
rather than wait longer, an upstream outcome arriving within the bound is
returned, and `handle_request` sends every successfully rewritten request
through this bounded forward. -/
theorem forward_timeout_correct :
    forwardTimeoutSecs = 600 ∧
    (∀ d up, 600 ≤ d → forward d up = .error .upstreamTimeout) ∧
    (∀ d up, d < 600 → forward d up = up) ∧
    (∀ params cache req now rd sub d up out,
      (buildOutbound params cache req now rd sub).outbound = .ok out →
      (handle_request params cache req now rd sub d up).response = forward d up) := by
  refine ⟨rfl, ?_, ?_, ?_⟩
  · intro d up h
    unfold forward forwardTimeoutSecs
    rw [if_neg (by omega)]
  · intro d up h
    unfold forward forwardTimeoutSecs
    rw [if_pos (by omega)]
  · intro params cache req now rd sub d up out h
    simp [handle_request, h]

theorem forward_timeout_witness :
    forward 600 (.ok ⟨200, []⟩) = .error .upstreamTimeout ∧
    forward 599 (.ok ⟨200, []⟩) = .ok ⟨200, []⟩ :=
  ⟨forward_timeout_correct.2.1 600 (.ok ⟨200, []⟩) (by omega),
   forward_timeout_correct.2.2.1 599 (.ok ⟨200, []⟩) (by omega)⟩

/-- C10: under the parser-provided precondition that the `COMMAND` value
list is non-empty, the parameters built by `get_proxy_params` carry that
non-empty vector through to request handling, where the unguarded
`command[0]` read is therefore in bounds: the out-of-bounds (panic)
branch of the credential callback is unreachable. -/
theorem command_indexing_safe (m : ArgMatches) (vs : List String) (p : ParsedParams)
    (hpresent : m.command = some vs) (hne : vs ≠ [])
    (hok : get_proxy_params m = .ok p) :
    p.command = vs ∧ p.command.head?.isSome = true ∧
    (∀ sub : Nat × List Nat,
      runCredentialCommand p.command sub = fetchToken sub.1 sub.2 ∧
      runCredentialCommand p.command sub ≠ .error .commandIndexPanic) := by
  obtain ⟨tu, ih, lh, lp, cmd⟩ := m
  simp only at hpresent
  subst hpresent
  have hcmd : p.command = vs := by
    unfold get_proxy_params at hok
    cases tu with
    | none => cases hok
    | some t =>
      cases lh with
      | none => cases hok
      | some host =>
        simp only at hok
        cases hport : (lp.bind parseU16?) with
        | none => rw [hport] at hok; cases hok
        | some port =>
          rw [hport] at hok
          injection hok with h
          rw [← h]
  refine ⟨hcmd, ?_, ?_⟩
  · rw [hcmd]
    cases vs with
    | nil => exact absurd rfl hne
    | cons x xs => rfl
  · intro sub
    have hhead : p.command.head? = some (vs.headD "") := by
      rw [hcmd]
      cases vs with
      | nil => exact absurd rfl hne
      | cons x xs => rfl
    constructor
    · unfold runCredentialCommand
      rw [hhead]
    · unfold runCredentialCommand
      rw [hhead]
      exact fetchToken_no_panic sub.1 sub.2

theorem command_indexing_safe_witness :
    ∃ p : ParsedParams,
      get_proxy_params ⟨some "https://upstream.example:8443", false,
        some "127.0.0.1", some "4545", some ["get-token", "arg"]⟩ = .ok p ∧
      p.command = ["get-token", "arg"] ∧ p.command.head?.isSome = true ∧
      runCredentialCommand p.command (0, [116, 111, 107]) = fetchToken 0 [116, 111, 107] := by
  refine ⟨⟨"https://upstream.example:8443", false, "127.0.0.1", 4545,
    ["get-token", "arg"]⟩, by decide, ?_⟩
  have h := command_indexing_safe
    ⟨some "https://upstream.example:8443", false, some "127.0.0.1", some "4545",
      some ["get-token", "arg"]⟩
    ["get-token", "arg"]
    ⟨"https://upstream.example:8443", false, "127.0.0.1", 4545, ["get-token", "arg"]⟩
    rfl (by simp) (by decide)
  exact ⟨h.1, h.2.1, (h.2.2 (0, [116, 111, 107])).1⟩

/-- After `HeaderMap::insert`, the name maps to exactly the one inserted
value: every previous value is gone. -/
theorem headerGetAll_insert (hs : List (String × String)) (n v : String) :
    headerGetAll (headerInsert hs n v) n = [v] := by
  unfold headerGetAll headerInsert
  rw [List.filter_append]
  have h1 : (hs.filter (fun p => p.1 ≠ n)).filter (fun p => p.1 = n) = [] := by
    induction hs with
    | nil => rfl
    | cons a as ih => by_cases h : a.1 = n <;> simp [h, ih]
  rw [h1]
  simp

/-- Lemma: `HeaderMap::remove` leaves the values of every other name intact. -/
theorem headerGetAll_remove_ne (hs : List (String × String)) (n m : String)
    (h : n ≠ m) : headerGetAll (headerRemove hs m) n = headerGetAll hs n := by
  unfold headerGetAll headerRemove
  induction hs with
  | nil => rfl
  | cons a as ih =>
    by_cases ha : a.1 = m
    · have hn : ¬ a.1 = n := fun hh => h (by rw [← hh]; exact ha)
      rw [List.filter_cons_of_neg (by simp [ha]),
        List.filter_cons_of_neg (by simp [hn])]
      exact ih
    · by_cases hb : a.1 = n
      · rw [List.filter_cons_of_pos (by simp [ha]),
          List.filter_cons_of_pos (by simp [hb]),
          List.filter_cons_of_pos (by simp [hb])]
        simp only [List.map_cons]
        rw [ih]
      · rw [List.filter_cons_of_pos (by simp [ha]),
          List.filter_cons_of_neg (by simp [hb]),
          List.filter_cons_of_neg (by simp [hb])]
        exact ih

/-- Lemma: `HeaderMap::remove` removes every value of the name. -/
theorem headerGetAll_remove_self (hs : List (String × String)) (n : String) :
    headerGetAll (headerRemove hs n) n = [] := by
  unfold headerGetAll headerRemove
  induction hs with
  | nil => rfl
  | cons a as ih => by_cases h : a.1 = n <;> simp [h, ih]

/-- Shape of `buildOutbound` when the configured target URL fails to parse
(`src/proxy.rs:100-104`): the request fails before anything else runs. -/
theorem buildOutbound_target_parse_error (params : ProxyParams)
    (cache : Option TokenCacheEntry) (req : Request) (now rd : Nat)
    (sub : Nat × List Nat) (e : UriError)
    (hp : parseUri params.target_url = .error e) :
    buildOutbound params cache req now rd sub =
      ⟨cache, false, .error (.invalidTargetUrl e)⟩ := by
  unfold buildOutbound
  simp only [hp]

/-- Shape of `buildOutbound` when reassembling the rewritten URI fails
(`src/proxy.rs:111`): the request fails before the token is fetched. -/
theorem buildOutbound_from_parts_error (params : ProxyParams)
    (cache : Option TokenCacheEntry) (req : Request) (now rd : Nat)
    (sub : Nat × List Nat) (target : UriParts) (e : UriError)
    (hp : parseUri params.target_url = .ok target)
    (hf : uriFromParts ⟨target.scheme, target.authority, req.uri.pathAndQuery⟩ =
      .error e) :
    buildOutbound params cache req now rd sub =
      ⟨cache, false, .error (.uriPartsError e)⟩ := by
  unfold buildOutbound
  simp only [hp, hf]

/-- Shape of `buildOutbound` when the cache step fails: the failure propagates and
the cache state of the step is kept. -/
theorem buildOutbound_refresh_error (params : ProxyParams)
    (cache : Option TokenCacheEntry) (req : Request) (now rd : Nat)
    (sub : Nat × List Nat) (target newUri : UriParts) (cache2 : Option TokenCacheEntry)
    (e : ProxyError) (invoked : Bool)
    (hp : parseUri params.target_url = .ok target)
    (hf : uriFromParts ⟨target.scheme, target.authority, req.uri.pathAndQuery⟩ =
      .ok newUri)
    (hg : get_or_refresh params.cache_ttl_secs cache now rd
      (runCredentialCommand params.command sub) = ⟨cache2, .error e, invoked⟩) :
    buildOutbound params cache req now rd sub = ⟨cache2, invoked, .error e⟩ := by
  unfold buildOutbound
  simp only [hp, hf, hg]

/-- Shape of `buildOutbound` on the success path: target parsed, URI reassembled,
token obtained, token header encodable. -/
theorem buildOutbound_ok_token (params : ProxyParams)
    (cache : Option TokenCacheEntry) (req : Request) (now rd : Nat)
    (sub : Nat × List Nat) (target newUri : UriParts) (cache2 : Option TokenCacheEntry)
    (token : String) (invoked : Bool)
    (hp : parseUri params.target_url = .ok target)
    (hf : uriFromParts ⟨target.scheme, target.authority, req.uri.pathAndQuery⟩ =
      .ok newUri)
    (hg : get_or_refresh params.cache_ttl_secs cache now rd
      (runCredentialCommand params.command sub) = ⟨cache2, .ok token, invoked⟩)
    (hv : isValidHeaderValue ("Bearer " ++ token) = true) :
    buildOutbound params cache req now rd sub =
      ⟨cache2, invoked, .ok ⟨req.method, newUri,
        headerRemove (headerInsert req.headers "authorization"
          ("Bearer " ++ token)) "host",
        req.body⟩⟩ := by
  unfold buildOutbound
  simp only [hp, hf, hg, hv, if_true]

/-- Shape of `buildOutbound` when the token has bytes illegal in a header value
(`HeaderValue::from_str` fails at `src/proxy.rs:137`). -/
theorem buildOutbound_header_invalid (params : ProxyParams)
    (cache : Option TokenCacheEntry) (req : Request) (now rd : Nat)
    (sub : Nat × List Nat) (target newUri : UriParts) (cache2 : Option TokenCacheEntry)
    (token : String) (invoked : Bool)
    (hp : parseUri params.target_url = .ok target)
    (hf : uriFromParts ⟨target.scheme, target.authority, req.uri.pathAndQuery⟩ =
      .ok newUri)
    (hg : get_or_refresh params.cache_ttl_secs cache now rd
      (runCredentialCommand params.command sub) = ⟨cache2, .ok token, invoked⟩)
    (hv : isValidHeaderValue ("Bearer " ++ token) = false) :
    buildOutbound params cache req now rd sub =
      ⟨cache2, invoked, .error .headerEncodingError⟩ := by
  unfold buildOutbound
  simp only [hp, hf, hg, hv, if_false]
  rw [if_neg (by simp [hv])]

/-- C4 counterexample: an inbound request whose URI has no path-and-query
component (the authority form `example.com`, as carried by a CONNECT
request) together with a target base URI that does parse as an absolute
URI yields no outbound request at all: `Uri::from_parts` fails with
`PathAndQueryMissing` and `handle_request` returns an error, so the claim
quantified over EVERY inbound request is false at this input. -/
theorem uri_rewrite_counterexample :
    parseUri "https://upstream.example:8443" =
      .ok ⟨some "https", some "upstream.example:8443", none⟩ ∧
    (buildOutbound ⟨"https://upstream.example:8443", false, "127.0.0.1", 4545, 300,
        ["get-token"]⟩ none ⟨"CONNECT", ⟨none, some "example.com", none⟩, [], []⟩
        0 0 (0, [116, 111, 107])).outbound =
      .error (.uriPartsError .pathAndQueryMissing) :=
  ⟨rfl, rfl⟩

/-- C4 (amended): for every inbound request WHOSE URI HAS A PATH-AND-QUERY
COMPONENT (as every origin-form request has) and every target base URI
that parses as an absolute URI (scheme and authority present), the
rewritten URI assembles successfully with the target scheme and
authority and the inbound path-and-query; and whenever the pipeline
produces an outbound request, that request carries exactly this URI and
the unchanged inbound method and body. -/
theorem uri_rewrite_amended (params : ProxyParams) (cache : Option TokenCacheEntry)
    (req : Request) (now rd : Nat) (sub : Nat × List Nat) (u : UriParts) (pq : String)
    (hparse : parseUri params.target_url = .ok u)
    (hsch : u.scheme.isSome = true) (hauth : u.authority.isSome = true)
    (hpq : req.uri.pathAndQuery = some pq) :
    uriFromParts ⟨u.scheme, u.authority, req.uri.pathAndQuery⟩ =
      .ok ⟨u.scheme, u.authority, some pq⟩ ∧
    ∀ out, (buildOutbound params cache req now rd sub).outbound = .ok out →
      out.uri = ⟨u.scheme, u.authority, some pq⟩ ∧
      out.method = req.method ∧ out.body = req.body := by
  obtain ⟨sv, hsv⟩ := Option.isSome_iff_exists.mp hsch
  obtain ⟨av, hav⟩ := Option.isSome_iff_exists.mp hauth
  have hfp : uriFromParts ⟨u.scheme, u.authority, req.uri.pathAndQuery⟩ =
      .ok ⟨u.scheme, u.authority, some pq⟩ := by
    rw [hpq, hsv, hav]
    rfl
  refine ⟨hfp, ?_⟩
  intro out hout
  cases hg : get_or_refresh params.cache_ttl_secs cache now rd
      (runCredentialCommand params.command sub) with
  | mk cache2 res invoked =>
    cases res with
    | error e =>
      rw [buildOutbound_refresh_error params cache req now rd sub u
        ⟨u.scheme, u.authority, some pq⟩ cache2 e invoked hparse hfp hg] at hout
      cases hout
    | ok token =>
      cases hv : isValidHeaderValue ("Bearer " ++ token) with
      | false =>
        rw [buildOutbound_header_invalid params cache req now rd sub u
          ⟨u.scheme, u.authority, some pq⟩ cache2 token invoked hparse hfp hg hv] at hout
        cases hout
      | true =>
        rw [buildOutbound_ok_token params cache req now rd sub u
          ⟨u.scheme, u.authority, some pq⟩ cache2 token invoked hparse hfp hg hv] at hout
        injection hout with h2
        rw [← h2]
        exact ⟨rfl, rfl, rfl⟩

theorem uri_rewrite_amended_witness :
    ∃ out : Request,
      (buildOutbound ⟨"https://upstream.example:8443", false, "127.0.0.1", 4545, 300,
          ["get-token"]⟩ none ⟨"GET", ⟨none, none, some "/foo/bar?x=1"⟩, [], [7]⟩
          0 0 (0, [116, 111, 107])).outbound = .ok out ∧
      out.uri = ⟨some "https", some "upstream.example:8443", some "/foo/bar?x=1"⟩ ∧
      out.method = "GET" ∧ out.body = [7] := by
  have h := uri_rewrite_amended
    ⟨"https://upstream.example:8443", false, "127.0.0.1", 4545, 300, ["get-token"]⟩
    none ⟨"GET", ⟨none, none, some "/foo/bar?x=1"⟩, [], [7]⟩ 0 0 (0, [116, 111, 107])
    ⟨some "https", some "upstream.example:8443", none⟩ "/foo/bar?x=1"
    rfl rfl rfl rfl
  exact ⟨⟨"GET", ⟨some "https", some "upstream.example:8443", some "/foo/bar?x=1"⟩,
    [("authorization", "Bearer tok")], [7]⟩, rfl, h.2 _ rfl⟩

/-- C5: whenever the pipeline produces an outbound request, the token the
cache step returned (which is the cached token whenever the entry was
valid) appears as the single value `Bearer <token>` of the outbound
`Authorization` header — any inbound `Authorization` values are
overwritten — and no `Host` header is present on the outbound request,
however many `Host` values the inbound request carried. -/
theorem header_effects_correct (params : ProxyParams) (cache : Option TokenCacheEntry)
    (req : Request) (now rd : Nat) (sub : Nat × List Nat) (out : Request)
    (hout : (buildOutbound params cache req now rd sub).outbound = .ok out) :
    (∃ tok, (get_or_refresh params.cache_ttl_secs cache now rd
        (runCredentialCommand params.command sub)).result = .ok tok ∧
      headerGetAll out.headers "authorization" = ["Bearer " ++ tok] ∧
      (∀ e, cache = some e → e.inserted_at + params.cache_ttl_secs > now →
        tok = e.token)) ∧
    headerGetAll out.headers "host" = [] ∧
    (∀ p ∈ out.headers, p.1 ≠ "host") := by
  cases hp : parseUri params.target_url with
  | error e =>
    rw [buildOutbound_target_parse_error params cache req now rd sub e hp] at hout
    cases hout
  | ok target =>
    cases hf : uriFromParts ⟨target.scheme, target.authority, req.uri.pathAndQuery⟩ with
    | error e =>
      rw [buildOutbound_from_parts_error params cache req now rd sub target e hp hf]
        at hout
      cases hout
    | ok newUri =>
      cases hg : get_or_refresh params.cache_ttl_secs cache now rd
          (runCredentialCommand params.command sub) with
      | mk cache2 res invoked =>
        cases res with
        | error e =>
          rw [buildOutbound_refresh_error params cache req now rd sub target newUri
            cache2 e invoked hp hf hg] at hout
          cases hout
        | ok token =>
          cases hv : isValidHeaderValue ("Bearer " ++ token) with
          | false =>
            rw [buildOutbound_header_invalid params cache req now rd sub target newUri
              cache2 token invoked hp hf hg hv] at hout
            cases hout
          | true =>
            rw [buildOutbound_ok_token params cache req now rd sub target newUri
              cache2 token invoked hp hf hg hv] at hout
            injection hout with h2
            subst h2
            refine ⟨⟨token, rfl, ?_, ?_⟩, ?_, ?_⟩
            · rw [headerGetAll_remove_ne _ _ _ (by decide), headerGetAll_insert]
            · intro e hce hvalid
              rw [hce] at hg
              rw [get_or_refresh_hit params.cache_ttl_secs e now rd
                (runCredentialCommand params.command sub) hvalid] at hg
              injection hg with hs1 hs2 hs3
              injection hs2 with hs4
              exact hs4.symm
            · exact headerGetAll_remove_self _ _
            · intro p hp2
              have := List.mem_filter.mp hp2
              simpa using this.2

theorem header_effects_witness :
    ∃ tok, (get_or_refresh 300 (some ⟨"tok", 0⟩) 5 5
        (runCredentialCommand ["get-token"] (0, []))).result = .ok tok ∧
      headerGetAll [("authorization", "Bearer tok")] "authorization" =
        ["Bearer " ++ tok] ∧
      headerGetAll [("authorization", "Bearer tok")] "host" = [] ∧
      tok = "tok" := by
  have h := header_effects_correct
    ⟨"https://upstream.example:8443", false, "127.0.0.1", 4545, 300, ["get-token"]⟩
    (some ⟨"tok", 0⟩) ⟨"GET", ⟨none, none, some "/x"⟩,
      [("authorization", "Bearer old"), ("host", "a"), ("host", "b")], []⟩
    5 5 (0, []) ⟨"GET", ⟨some "https", some "upstream.example:8443", some "/x"⟩,
      [("authorization", "Bearer tok")], []⟩ rfl
  obtain ⟨⟨tok, hres, hauth, hcached⟩, hhost, hmem⟩ := h
  exact ⟨tok, hres, hauth, hhost, (hcached ⟨"tok", 0⟩ rfl (by decide)).symm ▸ rfl⟩

/-- C8 counterexample: the empty string does not parse as a URI at all
(let alone an absolute one), yet `get_proxy_params` accepts it without
any error — startup performs no validation of the target URL — and the
invalidity is first detected inside `handle_request`, which fails the
individual request with the "Invalid target URL" error.  This refutes
"rejected as a configuration error at startup ... never first detected
during the handling of an individual request". -/
theorem startup_validation_counterexample :
    parseUri "" = .error .empty ∧
    get_proxy_params ⟨some "", false, some "127.0.0.1", some "4545",
        some ["get-token"]⟩ =
      .ok ⟨"", false, "127.0.0.1", 4545, ["get-token"]⟩ ∧
    (handle_request (ParsedParams.toProxyParams
        ⟨"", false, "127.0.0.1", 4545, ["get-token"]⟩ 300) none
        ⟨"GET", ⟨none, none, some "/"⟩, [], []⟩ 0 0 (0, []) 0
        (.ok ⟨200, []⟩)).response =
      .error (.invalidTargetUrl .empty) :=
  ⟨rfl, rfl, rfl⟩

/-- C8 (amended): the configured target base URL is not validated at
startup — `get_proxy_params` passes any provided string through verbatim
— and it is parsed during the handling of each request: a target string
that fails to parse makes every request fail with the "Invalid target
URL" error (before any provider invocation), rather than aborting
startup. -/
theorem startup_validation_amended :
    (∀ (m : ArgMatches) (p : ParsedParams), get_proxy_params m = .ok p →
      m.target_url = some p.target_url) ∧
    (∀ (params : ProxyParams) (cache : Option TokenCacheEntry) (req : Request)
      (now rd : Nat) (sub : Nat × List Nat) (d : Nat)
      (up : Except ProxyError Response) (e : UriError),
      parseUri params.target_url = .error e →
      handle_request params cache req now rd sub d up =
        ⟨cache, false, .error (.invalidTargetUrl e)⟩) := by
  constructor
  · intro m p hok
    obtain ⟨tu, ih, lh, lp, cmd⟩ := m
    unfold get_proxy_params at hok
    cases tu with
    | none => cases hok
    | some t =>
      cases lh with
      | none => cases hok
      | some host =>
        simp only at hok
        cases hport : (lp.bind parseU16?) with
        | none => rw [hport] at hok; cases hok
        | some port =>
          rw [hport] at hok
          cases cmd with
          | none => cases hok
          | some cs =>
            injection hok with h
            rw [← h]
  · intro params cache req now rd sub d up e hp
    unfold handle_request
    rw [buildOutbound_target_parse_error params cache req now rd sub e hp]

theorem startup_validation_amended_witness :
    (⟨some "", false, some "127.0.0.1", some "4545",
        some ["get-token"]⟩ : ArgMatches).target_url =
      some (⟨"", false, "127.0.0.1", 4545, ["get-token"]⟩ : ParsedParams).target_url ∧
    handle_request (ParsedParams.toProxyParams
        ⟨"", false, "127.0.0.1", 4545, ["get-token"]⟩ 300) none
      ⟨"GET", ⟨none, none, some "/"⟩, [], []⟩ 0 0 (0, []) 0 (.ok ⟨200, []⟩) =
      ⟨none, false, .error (.invalidTargetUrl .empty)⟩ :=
  ⟨startup_validation_amended.1
      ⟨some "", false, some "127.0.0.1", some "4545", some ["get-token"]⟩
      ⟨"", false, "127.0.0.1", 4545, ["get-token"]⟩ rfl,
   startup_validation_amended.2 (ParsedParams.toProxyParams
      ⟨"", false, "127.0.0.1", 4545, ["get-token"]⟩ 300) none
      ⟨"GET", ⟨none, none, some "/"⟩, [], []⟩ 0 0 (0, []) 0 (.ok ⟨200, []⟩)
      .empty rfl⟩

/-- C9: against an unchanged, valid cache entry the request build is a
deterministic function of the inbound request, the target base URI and
the cached token alone: two runs at different instants, with different
would-be refresh environments and subprocess outcomes, produce identical
results (identical outbound request and cache state), and the provider
is not invoked. -/
theorem rewrite_deterministic (params : ProxyParams) (req : Request)
    (ent : TokenCacheEntry) (t1 t2 rd1 rd2 : Nat) (sub1 sub2 : Nat × List Nat)
    (h1 : ent.inserted_at + params.cache_ttl_secs > t1)
    (h2 : ent.inserted_at + params.cache_ttl_secs > t2) :
    buildOutbound params (some ent) req t1 rd1 sub1 =
      buildOutbound params (some ent) req t2 rd2 sub2 ∧
    (buildOutbound params (some ent) req t1 rd1 sub1).invoked = false := by
  have hg1 := get_or_refresh_hit params.cache_ttl_secs ent t1 rd1
    (runCredentialCommand params.command sub1) h1
  have hg2 := get_or_refresh_hit params.cache_ttl_secs ent t2 rd2
    (runCredentialCommand params.command sub2) h2
  cases hp : parseUri params.target_url with
  | error e =>
    rw [buildOutbound_target_parse_error params (some ent) req t1 rd1 sub1 e hp,
      buildOutbound_target_parse_error params (some ent) req t2 rd2 sub2 e hp]
    exact ⟨rfl, rfl⟩
  | ok target =>
    cases hf : uriFromParts ⟨target.scheme, target.authority, req.uri.pathAndQuery⟩ with
    | error e =>
      rw [buildOutbound_from_parts_error params (some ent) req t1 rd1 sub1 target e
          hp hf,
        buildOutbound_from_parts_error params (some ent) req t2 rd2 sub2 target e
          hp hf]
      exact ⟨rfl, rfl⟩
    | ok newUri =>
      cases hv : isValidHeaderValue ("Bearer " ++ ent.token) with
      | true =>
        rw [buildOutbound_ok_token params (some ent) req t1 rd1 sub1 target newUri
            (some ent) ent.token false hp hf hg1 hv,
          buildOutbound_ok_token params (some ent) req t2 rd2 sub2 target newUri
            (some ent) ent.token false hp hf hg2 hv]
        exact ⟨rfl, rfl⟩
      | false =>
        rw [buildOutbound_header_invalid params (some ent) req t1 rd1 sub1 target
            newUri (some ent) ent.token false hp hf hg1 hv,
          buildOutbound_header_invalid params (some ent) req t2 rd2 sub2 target
            newUri (some ent) ent.token false hp hf hg2 hv]
        exact ⟨rfl, rfl⟩

theorem rewrite_deterministic_witness :
    buildOutbound
        ⟨"https://upstream.example:8443", false, "127.0.0.1", 4545, 300, ["get-token"]⟩
        (some ⟨"tok", 0⟩) ⟨"GET", ⟨none, none, some "/foo/bar?x=1"⟩, [], []⟩
        1 1 (0, [97]) =
      buildOutbound
        ⟨"https://upstream.example:8443", false, "127.0.0.1", 4545, 300, ["get-token"]⟩
        (some ⟨"tok", 0⟩) ⟨"GET", ⟨none, none, some "/foo/bar?x=1"⟩, [], []⟩
        250 250 (2, [98]) ∧
    (buildOutbound
        ⟨"https://upstream.example:8443", false, "127.0.0.1", 4545, 300, ["get-token"]⟩
        (some ⟨"tok", 0⟩) ⟨"GET", ⟨none, none, some "/foo/bar?x=1"⟩, [], []⟩
        1 1 (0, [97])).invoked = false :=
  rewrite_deterministic
    ⟨"https://upstream.example:8443", false, "127.0.0.1", 4545, 300, ["get-token"]⟩
    ⟨"GET", ⟨none, none, some "/foo/bar?x=1"⟩, [], []⟩ ⟨"tok", 0⟩
    1 250 1 250 (0, [97]) (2, [98]) (by decide) (by decide)
